import Mathlib

/-!
Verification of the VisualQuizShorts rendering core against its
natural-language specification.

The Python modules `src/video/animations.py`, `src/video/compositor.py`,
`src/video/renderer.py`, `src/video/ffmpeg.py` and `src/media/wiki.py` are
shallowly embedded below.  Python floats are modelled as rationals (all the
arithmetic the claims concern is exact decimal/rational arithmetic), Python
ints as integers, and side-effecting control flow (subprocess invocations,
file moves/unlinks, frame production) as explicit traces of actions.
-/

namespace VQS

/-- Python `int(x)` applied to a float/rational: truncation toward zero. -/
def pyInt (q : ℚ) : ℤ :=
  if q < 0 then ⌈q⌉ else ⌊q⌋

/-- The spec phrase "rounds to the nearest integer coordinate", as a
function: round to nearest (Mathlib convention, halves up).  Used only to
compare the spec's words against the code's `int(...)` truncation. -/
def specRound (q : ℚ) : ℤ := round q

theorem pyInt_of_nonneg {q : ℚ} (h : 0 ≤ q) : pyInt q = ⌊q⌋ := by
  simp [pyInt, not_lt.2 h]

/-! ## animations.py -/

/-- `linear(t) = t` (animations.py line 20). -/
def linear (t : ℚ) : ℚ := t

/-- `ease_out_cubic(t) = 1 - pow(1 - t, 3)` (animations.py line 24). -/
def ease_out_cubic (t : ℚ) : ℚ := 1 - (1 - t) ^ 3

/-- `ease_in_out_cubic` (animations.py line 28). -/
def ease_in_out_cubic (t : ℚ) : ℚ :=
  if t < 1 / 2 then 4 * t * t * t else 1 - (-2 * t + 2) ^ 3 / 2

/-- `ease_out_back` (animations.py line 34), overshoot constant
`c1 = 1.70158`. -/
def ease_out_back (t : ℚ) : ℚ :=
  let c1 : ℚ := 170158 / 100000
  let c3 : ℚ := c1 + 1
  1 + c3 * (t - 1) ^ 3 + c1 * (t - 1) ^ 2

/-- `lerp(a, b, t) = a + (b - a) * t` (animations.py line 45). -/
def lerp (a b t : ℚ) : ℚ := a + (b - a) * t

/-- `lerp_point(start, end, t, easing)` (animations.py lines 49-59):
clamp `t` to `[0,1]`, apply the easing, lerp both axes, convert each axis
with Python `int(...)`. -/
def lerp_point (s e : ℚ × ℚ) (t : ℚ) (easing : ℚ → ℚ) : ℤ × ℤ :=
  let t1 : ℚ := max 0 (min 1 t)
  let t2 : ℚ := easing t1
  (pyInt (lerp s.1 e.1 t2), pyInt (lerp s.2 e.2 t2))

/-- `countdown_value(total_seconds, elapsed_seconds)`
(animations.py lines 156-165): `max(0, total_seconds - int(elapsed))`. -/
def countdown_value (total_seconds : ℤ) (elapsed_seconds : ℚ) : ℤ :=
  max 0 (total_seconds - pyInt elapsed_seconds)

/-- `stagger_progress(global_progress, index, stagger_delay, duration)`
(animations.py lines 180-197). -/
def stagger_progress (global_progress : ℚ) (index : ℤ)
    (stagger_delay duration : ℚ) : ℚ :=
  let start : ℚ := index * stagger_delay
  let e : ℚ := start + duration
  if global_progress ≤ start then 0
  else if e ≤ global_progress then 1
  else (global_progress - start) / duration

end VQS

namespace VQS

/-! ## Claims about animations.py -/

/-- C6: every easing function provided by the engine maps 0 to 0 and 1 to 1,
and the overshoot easing `ease_out_back` exceeds 1 somewhere strictly
between 0 and 1 while returning exactly 1 at t = 1. -/
theorem easing_endpoints :
    linear 0 = 0 ∧ linear 1 = 1 ∧
    ease_out_cubic 0 = 0 ∧ ease_out_cubic 1 = 1 ∧
    ease_in_out_cubic 0 = 0 ∧ ease_in_out_cubic 1 = 1 ∧
    ease_out_back 0 = 0 ∧ ease_out_back 1 = 1 ∧
    ∃ t : ℚ, 0 < t ∧ t < 1 ∧ 1 < ease_out_back t :=
  ⟨rfl, rfl, by norm_num [ease_out_cubic], by norm_num [ease_out_cubic],
    by norm_num [ease_in_out_cubic], by norm_num [ease_in_out_cubic],
    by norm_num [ease_out_back], by norm_num [ease_out_back],
    ⟨9 / 10, by norm_num, by norm_num, by norm_num [ease_out_back]⟩⟩

/-- C1 counterexample: `lerp_point` converts each axis with Python
`int(...)`, which truncates toward zero, not round-to-nearest: at
start = (0.9, 0.9), end = (2, 2), t = 0 with the linear easing the code
yields (0, 0) while rounding start to the nearest integer yields (1, 1). -/
theorem lerp_point_not_round :
    lerp_point ((9 : ℚ) / 10, (9 : ℚ) / 10) (2, 2) 0 linear ≠
      (specRound ((9 : ℚ) / 10), specRound ((9 : ℚ) / 10)) := by
  have h1 : lerp_point ((9 : ℚ) / 10, (9 : ℚ) / 10) (2, 2) 0 linear = (0, 0) := by
    norm_num [lerp_point, lerp, linear, pyInt]
  have h2 : specRound ((9 : ℚ) / 10) = 1 := by
    norm_num [specRound, round_eq]
  rw [h1, h2]
  decide

/-- C1 amended: for every easing that fixes 0 and 1 (as all four provided
easings do), `lerp_point(start, end, 0)` is start with each axis truncated
toward zero (Python `int(...)`), and `lerp_point(start, end, 1)` is end
truncated likewise. -/
theorem lerp_point_endpoints (s e : ℚ × ℚ) (easing : ℚ → ℚ)
    (h0 : easing 0 = 0) (h1 : easing 1 = 1) :
    lerp_point s e 0 easing = (pyInt s.1, pyInt s.2) ∧
    lerp_point s e 1 easing = (pyInt e.1, pyInt e.2) := by
  have c0 : max (0 : ℚ) (min 1 0) = 0 := by norm_num
  have c1 : max (0 : ℚ) (min 1 1) = 1 := by norm_num
  constructor
  · simp only [lerp_point, c0, h0, lerp]
    norm_num
  · simp only [lerp_point, c1, h1, lerp]
    rw [show s.1 + (e.1 - s.1) * 1 = e.1 by ring,
      show s.2 + (e.2 - s.2) * 1 = e.2 by ring]

/-- Witness for the amended C1 at start = (0.9, 0.9), end = (2, 2) with the
linear easing. -/
theorem lerp_point_endpoints_witness :
    lerp_point ((9 : ℚ) / 10, (9 : ℚ) / 10) (2, 2) 0 linear =
      (pyInt ((9 : ℚ) / 10), pyInt ((9 : ℚ) / 10)) ∧
    lerp_point ((9 : ℚ) / 10, (9 : ℚ) / 10) (2, 2) 1 linear =
      (pyInt 2, pyInt 2) :=
  lerp_point_endpoints ((9 : ℚ) / 10, (9 : ℚ) / 10) (2, 2) linear rfl rfl

/-- C4 counterexample: `countdown_value` truncates the elapsed time with
Python `int(...)` (toward zero), not floor; at T = 10, e = -3/2 the code
yields 11, which differs from max(0, T - floor(e)) = 12 and lies outside
[0, T]. -/
theorem countdown_value_not_floor :
    countdown_value 10 (-(3 : ℚ) / 2) ≠ max 0 (10 - ⌊(-(3 : ℚ) / 2)⌋) ∧
    ¬ countdown_value 10 (-(3 : ℚ) / 2) ≤ 10 := by
  have hceil : ⌈(-(3 : ℚ) / 2)⌉ = -1 := by
    rw [show (-(3 : ℚ) / 2) = -(3 / 2) by ring, Int.ceil_neg]
    norm_num
  have hpy : pyInt (-(3 : ℚ) / 2) = -1 := by
    rw [pyInt, if_pos (by norm_num), hceil]
  have hv : countdown_value 10 (-(3 : ℚ) / 2) = 11 := by
    rw [countdown_value, hpy]
    decide
  have hf : ⌊(-(3 : ℚ) / 2)⌋ = -2 := by
    rw [show (-(3 : ℚ) / 2) = -(3 / 2) by ring]
    norm_num
  rw [hv, hf]
  constructor
  · decide
  · decide

/-- C4 amended: for every integer T ≥ 0 and every elapsed time e ≥ 0,
`countdown_value(T, e) = max(0, T - floor(e))`, the result lies in [0, T],
equals T at e = 0, equals 0 for every e ≥ T, and is non-increasing in e. -/
theorem countdown_value_spec (T : ℤ) (e : ℚ) (hT : 0 ≤ T) (he : 0 ≤ e) :
    countdown_value T e = max 0 (T - ⌊e⌋) ∧
    0 ≤ countdown_value T e ∧
    countdown_value T e ≤ T ∧
    countdown_value T 0 = T ∧
    ((T : ℚ) ≤ e → countdown_value T e = 0) ∧
    (∀ e2 : ℚ, e ≤ e2 → countdown_value T e2 ≤ countdown_value T e) := by
  have hfe : 0 ≤ ⌊e⌋ := Int.floor_nonneg.2 he
  have heq : countdown_value T e = max 0 (T - ⌊e⌋) := by
    rw [countdown_value, pyInt_of_nonneg he]
  refine ⟨heq, ?_, ?_, ?_, ?_, ?_⟩
  · exact le_max_left _ _
  · rw [heq]
    exact max_le hT (by omega)
  · rw [countdown_value, pyInt_of_nonneg le_rfl]
    simp [hT]
  · intro hTe
    have : T ≤ ⌊e⌋ := Int.le_floor.2 hTe
    rw [heq]
    omega
  · intro e2 h2
    rw [heq, countdown_value, pyInt_of_nonneg (he.trans h2)]
    have : ⌊e⌋ ≤ ⌊e2⌋ := Int.floor_le_floor h2
    omega

/-- Witness for the amended C4 at T = 15, e = 7/2 (and e2 = 4 for the
monotonicity conjunct). -/
theorem countdown_value_spec_witness :
    countdown_value 15 (7 / 2) = max 0 (15 - ⌊(7 : ℚ) / 2⌋) ∧
    0 ≤ countdown_value 15 (7 / 2) ∧
    countdown_value 15 (7 / 2) ≤ 15 ∧
    countdown_value 15 0 = 15 ∧
    countdown_value 15 4 ≤ countdown_value 15 (7 / 2) := by
  obtain ⟨h1, h2, h3, h4, _, h6⟩ :=
    countdown_value_spec 15 (7 / 2) (by norm_num) (by norm_num)
  exact ⟨h1, h2, h3, h4, h6 4 (by norm_num)⟩

/-- C5: for index i ≥ 0, delay ≥ 0 and duration > 0, `stagger_progress` is
0 up to i*delay, 1 from i*delay + duration on, the linear value
(t - i*delay)/duration strictly between 0 and 1 in between, and is
non-decreasing in t. -/
theorem stagger_progress_spec (i : ℤ) (delay dur : ℚ)
    (hi : 0 ≤ i) (hdelay : 0 ≤ delay) (hdur : 0 < dur) :
    (∀ t : ℚ, t ≤ i * delay → stagger_progress t i delay dur = 0) ∧
    (∀ t : ℚ, (i : ℚ) * delay + dur ≤ t → stagger_progress t i delay dur = 1) ∧
    (∀ t : ℚ, (i : ℚ) * delay < t → t < (i : ℚ) * delay + dur →
      stagger_progress t i delay dur = (t - i * delay) / dur ∧
      0 < stagger_progress t i delay dur ∧
      stagger_progress t i delay dur < 1) ∧
    (∀ t1 t2 : ℚ, t1 ≤ t2 →
      stagger_progress t1 i delay dur ≤ stagger_progress t2 i delay dur) := by
  refine ⟨?_, ?_, ?_, ?_⟩
  · intro t ht
    simp [stagger_progress, ht]
  · intro t ht
    have h1 : ¬ t ≤ (i : ℚ) * delay := by linarith
    simp [stagger_progress, h1, ht]
  · intro t h1 h2
    have h1' : ¬ t ≤ (i : ℚ) * delay := not_le.2 h1
    have h2' : ¬ ((i : ℚ) * delay + dur ≤ t) := not_le.2 h2
    have he : stagger_progress t i delay dur = (t - i * delay) / dur := by
      simp [stagger_progress, h1', h2']
    refine ⟨he, ?_, ?_⟩
    · rw [he]
      exact div_pos (by linarith) hdur
    · rw [he]
      exact (div_lt_one hdur).2 (by linarith)
  · intro t1 t2 h12
    simp only [stagger_progress]
    split_ifs with ha hb hc hd he hf <;>
      first
        | rfl
        | positivity
        | linarith
        | exact zero_le_one
        | (exact div_nonneg (by linarith) hdur.le)
        | (exact (div_le_one hdur).2 (by linarith))
        | (gcongr <;> linarith)

/-- Witness for C5 at i = 1, delay = 1/5, duration = 1/2, evaluated at
t = 0 (before), t = 1 (after) and t = 9/20 (strictly inside). -/
theorem stagger_progress_spec_witness :
    stagger_progress 0 1 (1 / 5) (1 / 2) = 0 ∧
    stagger_progress 1 1 (1 / 5) (1 / 2) = 1 ∧
    stagger_progress (9 / 20) 1 (1 / 5) (1 / 2) =
      ((9 : ℚ) / 20 - 1 * (1 / 5)) / (1 / 2) := by
  obtain ⟨h0, h1, hm, _⟩ :=
    stagger_progress_spec 1 (1 / 5) (1 / 2) (by norm_num) (by norm_num) (by norm_num)
  refine ⟨h0 0 (by norm_num), h1 1 (by norm_num), ?_⟩
  have := (hm (9 / 20) (by norm_num) (by norm_num)).1
  simpa using this

/-- C10: `stagger_progress` is total even for non-positive duration — the
division branch is only reachable when the two boundary guards both fail,
which forces duration > 0; for duration ≤ 0 the result is 0 or 1 from the
boundary branches. -/
theorem stagger_progress_total (gp : ℚ) (i : ℤ) (delay dur : ℚ) :
    (dur ≤ 0 →
      stagger_progress gp i delay dur = 0 ∨ stagger_progress gp i delay dur = 1) ∧
    (¬ gp ≤ (i : ℚ) * delay → ¬ ((i : ℚ) * delay + dur ≤ gp) → 0 < dur) := by
  constructor
  · intro hdur
    by_cases hg : gp ≤ (i : ℚ) * delay
    · left
      simp [stagger_progress, hg]
    · right
      have hge : (i : ℚ) * delay + dur ≤ gp := by
        push_neg at hg
        linarith
      simp [stagger_progress, hg, hge]
  · intro h1 h2
    push_neg at h1 h2
    linarith

/-- Witness for C10 at gp = 5, i = 1, delay = 1/2, duration = -1. -/
theorem stagger_progress_total_witness :
    stagger_progress 5 1 (1 / 2) (-1) = 0 ∨
    stagger_progress 5 1 (1 / 2) (-1) = 1 :=
  (stagger_progress_total 5 1 (1 / 2) (-1)).1 (by norm_num)

/-! ## compositor.py / renderer.py frame loop

`QuizCompositor.__init__` sets `total_frames = duration_seconds * FPS` and
`outro_start = duration_seconds - OUTRO_SECONDS`; the frame loop samples
`t = i / FPS` for `i` in `range(total_frames)` and `_render_frame` branches
to the outro scene exactly when `t >= outro_start`.  Only the scene choice
per frame is relevant to the claims, so a frame is modelled by which scene
produced it. -/

/-- Which of the two scenes produced a frame. -/
inductive SceneKind where
  | main
  | outro
deriving DecidableEq, Repr

/-- `self.total_frames = duration_seconds * FPS` (compositor.py line 81). -/
def total_frames (duration_seconds fps : ℤ) : ℤ := duration_seconds * fps

/-- Scene selection of `_render_frame` (compositor.py lines 115-117) at the
sampled time `t = i / fps` of frame `i` (renderer.py line 200):
outro iff `t >= duration_seconds - outro_seconds`. -/
def _render_frame (duration_seconds outro_seconds fps : ℤ) (i : ℕ) : SceneKind :=
  if ((duration_seconds : ℚ) - (outro_seconds : ℚ)) ≤ (i : ℚ) / (fps : ℚ) then
    SceneKind.outro
  else
    SceneKind.main

/-- The frame loop: scenes of frames `0 .. total_frames - 1`
(compositor.py line 108, renderer.py line 199). -/
def render_frames (duration_seconds outro_seconds fps : ℤ) : List SceneKind :=
  (List.range (total_frames duration_seconds fps).toNat).map
    (_render_frame duration_seconds outro_seconds fps)

theorem render_frame_outro_iff (d o f : ℤ) (hf : 0 < f) (i : ℕ) :
    _render_frame d o f i = SceneKind.outro ↔ (d - o) * f ≤ (i : ℤ) := by
  have hfq : (0 : ℚ) < (f : ℚ) := by exact_mod_cast hf
  have hcond : ((d : ℚ) - (o : ℚ)) ≤ (i : ℚ) / (f : ℚ) ↔ (d - o) * f ≤ (i : ℤ) := by
    rw [le_div_iff hfq]
    constructor
    · intro h
      exact_mod_cast h
    · intro h
      exact_mod_cast h
  unfold _render_frame
  split_ifs with h
  · exact iff_of_true rfl (hcond.1 h)
  · refine iff_of_false (by simp) fun hle => h (hcond.2 hle)

theorem render_frames_length (d o f : ℤ) (hd : 0 ≤ d) (hf : 0 ≤ f) :
    ((render_frames d o f).length : ℤ) = d * f := by
  simp only [render_frames, List.length_map, List.length_range, total_frames]
  exact Int.toNat_of_nonneg (mul_nonneg hd hf)

/-- C2: for every valid configuration (0 < fps, 0 ≤ outro < duration, all
integers) the render produces exactly duration*fps frames; the frame
sampled at t = i/fps is produced via the outro scene iff
t ≥ duration - outro, equivalently iff i ≥ (duration - outro)*fps; in
particular with duration = 20, fps = 30, outro = 3 exactly 600 frames are
produced and precisely the frames with index ≥ 510 use the outro scene. -/
theorem frame_count_and_outro_selection (d o f : ℤ)
    (hf : 0 < f) (ho : 0 ≤ o) (hdo : o < d) :
    ((render_frames d o f).length : ℤ) = d * f ∧
    (∀ i : ℕ, _render_frame d o f i = SceneKind.outro ↔
      ((d : ℚ) - (o : ℚ)) ≤ (i : ℚ) / (f : ℚ)) ∧
    (∀ i : ℕ, _render_frame d o f i = SceneKind.outro ↔ (d - o) * f ≤ (i : ℤ)) ∧
    (render_frames 20 3 30).length = 600 ∧
    (∀ i : ℕ, _render_frame 20 3 30 i = SceneKind.outro ↔ 510 ≤ i) := by
  have hd : 0 ≤ d := le_trans ho hdo.le
  refine ⟨render_frames_length d o f hd hf.le, ?_, ?_, ?_, ?_⟩
  · intro i
    have hfq : (0 : ℚ) < (f : ℚ) := by exact_mod_cast hf
    rw [render_frame_outro_iff d o f hf i, le_div_iff hfq]
    constructor
    · intro h
      exact_mod_cast h
    · intro h
      exact_mod_cast h
  · exact render_frame_outro_iff d o f hf
  · have := render_frames_length 20 3 30 (by norm_num) (by norm_num)
    exact_mod_cast this
  · intro i
    rw [render_frame_outro_iff 20 3 30 (by norm_num) i,
      show ((20 : ℤ) - 3) * 30 = 510 by norm_num]
    exact Int.ofNat_le

/-- Witness for C2 in the scenario duration = 20, outro = 3, fps = 30:
600 frames, frame 510 is the first outro frame. -/
theorem frame_count_and_outro_selection_witness :
    (render_frames 20 3 30).length = 600 ∧
    (_render_frame 20 3 30 510 = SceneKind.outro ↔ 510 ≤ 510) ∧
    (_render_frame 20 3 30 509 = SceneKind.outro ↔ 510 ≤ 509) := by
  obtain ⟨-, -, -, hlen, hsel⟩ :=
    frame_count_and_outro_selection 20 3 30 (by norm_num) (by norm_num) (by norm_num)
  exact ⟨hlen, hsel 510, hsel 509⟩

/-! ## media/wiki.py image upscaling -/

/-- `_upscale` (wiki.py lines 59-67) on an image of size w×h against the
configured minima: `scale = max(min_width/w, min_height/h)` in float
arithmetic, new size `(int(w*scale), int(h*scale))`. -/
def _upscale (minW minH w h : ℤ) : ℤ × ℤ :=
  let scale : ℚ := max ((minW : ℚ) / (w : ℚ)) ((minH : ℚ) / (h : ℚ))
  (pyInt ((w : ℚ) * scale), pyInt ((h : ℚ) * scale))

theorem upscale_dim_bounds (minW minH w h : ℤ)
    (hw : 0 < w) (hh : 0 < h) (hmW : 0 ≤ minW) (hmH : 0 ≤ minH) :
    minW ≤ (_upscale minW minH w h).1 ∧ minH ≤ (_upscale minW minH w h).2 ∧
    (((_upscale minW minH w h).1 : ℚ) ≤
        (w : ℚ) * max ((minW : ℚ) / (w : ℚ)) ((minH : ℚ) / (h : ℚ)) ∧
      (w : ℚ) * max ((minW : ℚ) / (w : ℚ)) ((minH : ℚ) / (h : ℚ)) <
        ((_upscale minW minH w h).1 : ℚ) + 1) ∧
    (((_upscale minW minH w h).2 : ℚ) ≤
        (h : ℚ) * max ((minW : ℚ) / (w : ℚ)) ((minH : ℚ) / (h : ℚ)) ∧
      (h : ℚ) * max ((minW : ℚ) / (w : ℚ)) ((minH : ℚ) / (h : ℚ)) <
        ((_upscale minW minH w h).2 : ℚ) + 1) := by
  have hwq : (0 : ℚ) < (w : ℚ) := by exact_mod_cast hw
  have hhq : (0 : ℚ) < (h : ℚ) := by exact_mod_cast hh
  have hmWq : (0 : ℚ) ≤ (minW : ℚ) := by exact_mod_cast hmW
  have hmHq : (0 : ℚ) ≤ (minH : ℚ) := by exact_mod_cast hmH
  set s : ℚ := max ((minW : ℚ) / (w : ℚ)) ((minH : ℚ) / (h : ℚ)) with hs
  have hW : (minW : ℚ) ≤ (w : ℚ) * s := by
    have h1 : (minW : ℚ) / (w : ℚ) * (w : ℚ) = (minW : ℚ) :=
      div_mul_cancel₀ _ (ne_of_gt hwq)
    calc (minW : ℚ) = (minW : ℚ) / (w : ℚ) * (w : ℚ) := h1.symm
      _ ≤ s * (w : ℚ) := mul_le_mul_of_nonneg_right (le_max_left _ _) hwq.le
      _ = (w : ℚ) * s := mul_comm _ _
  have hH : (minH : ℚ) ≤ (h : ℚ) * s := by
    have h1 : (minH : ℚ) / (h : ℚ) * (h : ℚ) = (minH : ℚ) :=
      div_mul_cancel₀ _ (ne_of_gt hhq)
    calc (minH : ℚ) = (minH : ℚ) / (h : ℚ) * (h : ℚ) := h1.symm
      _ ≤ s * (h : ℚ) := mul_le_mul_of_nonneg_right (le_max_right _ _) hhq.le
      _ = (h : ℚ) * s := mul_comm _ _
  have hWnn : (0 : ℚ) ≤ (w : ℚ) * s := le_trans hmWq hW
  have hHnn : (0 : ℚ) ≤ (h : ℚ) * s := le_trans hmHq hH
  have e1 : (_upscale minW minH w h).1 = ⌊(w : ℚ) * s⌋ := by
    simp only [_upscale, ← hs]
    exact pyInt_of_nonneg hWnn
  have e2 : (_upscale minW minH w h).2 = ⌊(h : ℚ) * s⌋ := by
    simp only [_upscale, ← hs]
    exact pyInt_of_nonneg hHnn
  refine ⟨?_, ?_, ?_, ?_⟩
  · rw [e1]
    exact Int.le_floor.2 hW
  · rw [e2]
    exact Int.le_floor.2 hH
  · rw [e1]
    exact ⟨Int.floor_le _, Int.lt_floor_add_one _⟩
  · rw [e2]
    exact ⟨Int.floor_le _, Int.lt_floor_add_one _⟩

/-- C3: for every source image below the configured minimum in either
dimension, the correction `scale = max(min_width/w, min_height/h)`,
new size `(int(w*scale), int(h*scale))` yields dimensions that are both
at least the minima and that each lie within one pixel (below) of the
exactly aspect-preserving values `w*scale` and `h*scale`; a 500×500 image
against a 600×600 minimum is upscaled to exactly 600×600. -/
theorem upscale_meets_minimum (minW minH w h : ℤ)
    (hw : 0 < w) (hh : 0 < h) (hmW : 0 ≤ minW) (hmH : 0 ≤ minH)
    (hsmall : w < minW ∨ h < minH) :
    minW ≤ (_upscale minW minH w h).1 ∧ minH ≤ (_upscale minW minH w h).2 ∧
    (((_upscale minW minH w h).1 : ℚ) ≤
        (w : ℚ) * max ((minW : ℚ) / (w : ℚ)) ((minH : ℚ) / (h : ℚ)) ∧
      (w : ℚ) * max ((minW : ℚ) / (w : ℚ)) ((minH : ℚ) / (h : ℚ)) <
        ((_upscale minW minH w h).1 : ℚ) + 1) ∧
    (((_upscale minW minH w h).2 : ℚ) ≤
        (h : ℚ) * max ((minW : ℚ) / (w : ℚ)) ((minH : ℚ) / (h : ℚ)) ∧
      (h : ℚ) * max ((minW : ℚ) / (w : ℚ)) ((minH : ℚ) / (h : ℚ)) <
        ((_upscale minW minH w h).2 : ℚ) + 1) ∧
    _upscale 600 600 500 500 = (600, 600) := by
  obtain ⟨h1, h2, h3, h4⟩ := upscale_dim_bounds minW minH w h hw hh hmW hmH
  refine ⟨h1, h2, h3, h4, ?_⟩
  have hmax : max ((600 : ℚ) / 500) ((600 : ℚ) / 500) = 6 / 5 := by
    rw [max_self]
    norm_num
  simp only [_upscale, Int.cast_ofNat]
  norm_num [hmax, pyInt]

/-- Witness for C3: the 500×500 placeholder against the 600×600 minimum. -/
theorem upscale_meets_minimum_witness :
    600 ≤ (_upscale 600 600 500 500).1 ∧ 600 ≤ (_upscale 600 600 500 500).2 ∧
    (((_upscale 600 600 500 500).1 : ℚ) ≤
        (500 : ℚ) * max ((600 : ℚ) / (500 : ℚ)) ((600 : ℚ) / (500 : ℚ)) ∧
      (500 : ℚ) * max ((600 : ℚ) / (500 : ℚ)) ((600 : ℚ) / (500 : ℚ)) <
        ((_upscale 600 600 500 500).1 : ℚ) + 1) ∧
    (((_upscale 600 600 500 500).2 : ℚ) ≤
        (500 : ℚ) * max ((600 : ℚ) / (500 : ℚ)) ((600 : ℚ) / (500 : ℚ)) ∧
      (500 : ℚ) * max ((600 : ℚ) / (500 : ℚ)) ((600 : ℚ) / (500 : ℚ)) <
        ((_upscale 600 600 500 500).2 : ℚ) + 1) ∧
    _upscale 600 600 500 500 = (600, 600) := by
  have := upscale_meets_minimum 600 600 500 500 (by norm_num) (by norm_num)
    (by norm_num) (by norm_num) (Or.inl (by norm_num))
  push_cast at this
  exact this

/-! ## video/ffmpeg.py

The two ffmpeg invocations of `mux_music` are embedded as the literal
argument lists the code builds (ffmpeg.py lines 119-147 and 157-180), and
`frames_to_mp4` (lines 190-220) as the sequence of external actions it
performs on a successful run: encode, then either mux (+ delete the
intermediate) or move the intermediate to the final path.  The outcome of
the first mux attempt is an input (`mixFails`), mirroring the
`try/except RuntimeError` around the first `_run`. -/

/-- A `pathlib.Path` as far as the claims need it: a stem plus the final
suffix, so that `with_suffix` is faithful. -/
structure PyPath where
  stem : String
  suffix : String
deriving DecidableEq, Repr

/-- `Path.with_suffix(s)`: replace the final suffix. -/
def with_suffix (p : PyPath) (s : String) : PyPath := ⟨p.stem, s⟩

/-- `str(path)`. -/
def pathStr (p : PyPath) : String := p.stem ++ p.suffix

/-- The mix attempt `mix_cmd` (ffmpeg.py lines 119-147); `volume` is the
formatted `MUSIC_VOLUME`. -/
def mix_cmd (in_mp4 music_file out_mp4 volume : String) : List String :=
  ["ffmpeg", "-y", "-loglevel", "error", "-i", in_mp4, "-i", music_file,
   "-filter_complex",
   "[1:a]volume=" ++ volume ++ "[bg];[0:a][bg]amix=inputs=2:duration=shortest[aout]",
   "-map", "0:v:0", "-map", "[aout]", "-c:v", "copy", "-c:a", "aac",
   "-b:a", "192k", "-shortest", "-movflags", "+faststart", out_mp4]

/-- The music-only fallback `fallback_cmd` (ffmpeg.py lines 157-180). -/
def fallback_cmd (in_mp4 music_file out_mp4 : String) : List String :=
  ["ffmpeg", "-y", "-loglevel", "error", "-i", in_mp4, "-i", music_file,
   "-map", "0:v:0", "-map", "1:a:0", "-c:v", "copy", "-c:a", "aac",
   "-b:a", "192k", "-shortest", "-movflags", "+faststart", out_mp4]

/-- The values following every occurrence of `flag` in an argument list. -/
def argsOf (flag : String) : List String → List String
  | a :: b :: rest => (if a = flag then [b] else []) ++ argsOf flag (b :: rest)
  | _ => []

/-- `mux_music` (ffmpeg.py lines 103-183) as the list of ffmpeg commands it
runs: the mix attempt, then — only if that attempt raised — the fallback. -/
def mux_music (in_mp4 music_file out_mp4 volume : String) (mixFails : Bool) :
    List (List String) :=
  if mixFails then
    [mix_cmd in_mp4 music_file out_mp4 volume,
     fallback_cmd in_mp4 music_file out_mp4]
  else
    [mix_cmd in_mp4 music_file out_mp4 volume]

/-- One externally visible action of `frames_to_mp4`. -/
inductive FileAction where
  | encodeFrames (framesDir out : String)
  | runCmd (cmd : List String)
  | unlink (p : String)
  | move (src dst : String)
deriving DecidableEq, Repr

/-- `frames_to_mp4` (ffmpeg.py lines 190-220) as its action trace on a
successful run: encode to `out.with_suffix(".nomusic.mp4")`; then, when
background music is enabled and a music file is present, run the mux
commands and unlink the intermediate, otherwise move the intermediate to
the final output path. -/
def frames_to_mp4 (framesDir : String) (out_mp4 : PyPath)
    (music_file : Option String) (enable_background_music : Bool)
    (volume : String) (mixFails : Bool) : List FileAction :=
  let temp := with_suffix out_mp4 ".nomusic.mp4"
  FileAction.encodeFrames framesDir (pathStr temp) ::
    match enable_background_music, music_file with
    | true, some m =>
        (mux_music (pathStr temp) m (pathStr out_mp4) volume mixFails).map
            FileAction.runCmd
          ++ [FileAction.unlink (pathStr temp)]
    | _, _ => [FileAction.move (pathStr temp) (pathStr out_mp4)]

/-- C7: with background music configured, a failed mix attempt is followed
by exactly one fallback invocation that maps the music track (input 1) as
the sole audio stream and copies the video stream; the intermediate
unmuxed file is unlinked after a successful mux (on both the mix and the
fallback path) and is moved to the final output path when no music is
used. -/
theorem mux_fallback_and_promotion (framesDir : String) (out : PyPath)
    (m volume : String) (hm1 : m ≠ "-map") (hm2 : m ≠ "-c:v") :
    frames_to_mp4 framesDir out (some m) true volume true =
      [FileAction.encodeFrames framesDir (out.stem ++ ".nomusic.mp4"),
       FileAction.runCmd (mix_cmd (out.stem ++ ".nomusic.mp4") m (pathStr out) volume),
       FileAction.runCmd (fallback_cmd (out.stem ++ ".nomusic.mp4") m (pathStr out)),
       FileAction.unlink (out.stem ++ ".nomusic.mp4")] ∧
    argsOf "-map" (fallback_cmd (out.stem ++ ".nomusic.mp4") m (pathStr out)) =
      ["0:v:0", "1:a:0"] ∧
    argsOf "-c:v" (fallback_cmd (out.stem ++ ".nomusic.mp4") m (pathStr out)) =
      ["copy"] ∧
    frames_to_mp4 framesDir out (some m) true volume false =
      [FileAction.encodeFrames framesDir (out.stem ++ ".nomusic.mp4"),
       FileAction.runCmd (mix_cmd (out.stem ++ ".nomusic.mp4") m (pathStr out) volume),
       FileAction.unlink (out.stem ++ ".nomusic.mp4")] ∧
    (∀ mf : Bool, frames_to_mp4 framesDir out none true volume mf =
      [FileAction.encodeFrames framesDir (out.stem ++ ".nomusic.mp4"),
       FileAction.move (out.stem ++ ".nomusic.mp4") (pathStr out)]) ∧
    (∀ mf : Bool, frames_to_mp4 framesDir out (some m) false volume mf =
      [FileAction.encodeFrames framesDir (out.stem ++ ".nomusic.mp4"),
       FileAction.move (out.stem ++ ".nomusic.mp4") (pathStr out)]) := by
  have htemp : pathStr (with_suffix out ".nomusic.mp4") = out.stem ++ ".nomusic.mp4" := rfl
  have hl12 : (".nomusic.mp4" : String).length = 12 := by decide
  have hm4 : ("-map" : String).length = 4 := by decide
  have hc4 : ("-c:v" : String).length = 4 := by decide
  have hlen : (out.stem ++ ".nomusic.mp4").length = out.stem.length + 12 := by
    rw [String.length_append, hl12]
  have ht1 : (out.stem ++ ".nomusic.mp4") ≠ "-map" := by
    intro h
    have := congrArg String.length h
    rw [hlen, hm4] at this
    omega
  have ht2 : (out.stem ++ ".nomusic.mp4") ≠ "-c:v" := by
    intro h
    have := congrArg String.length h
    rw [hlen, hc4] at this
    omega
  refine ⟨?_, ?_, ?_, ?_, ?_, ?_⟩
  · simp [frames_to_mp4, mux_music, htemp]
  · simp [fallback_cmd, argsOf, ht1, hm1]
  · simp [fallback_cmd, argsOf, ht2, hm2]
  · simp [frames_to_mp4, mux_music, htemp]
  · intro mf
    simp [frames_to_mp4, htemp]
  · intro mf
    simp [frames_to_mp4, htemp]

/-- Witness for C7 at concrete paths. -/
theorem mux_fallback_and_promotion_witness :
    frames_to_mp4 "frames" ⟨"video", ".mp4"⟩ (some "music.mp3") true "0.15" true =
      [FileAction.encodeFrames "frames" ("video" ++ ".nomusic.mp4"),
       FileAction.runCmd
         (mix_cmd ("video" ++ ".nomusic.mp4") "music.mp3"
           (pathStr ⟨"video", ".mp4"⟩) "0.15"),
       FileAction.runCmd
         (fallback_cmd ("video" ++ ".nomusic.mp4") "music.mp3"
           (pathStr ⟨"video", ".mp4"⟩)),
       FileAction.unlink ("video" ++ ".nomusic.mp4")] ∧
    argsOf "-map"
      (fallback_cmd ("video" ++ ".nomusic.mp4") "music.mp3"
        (pathStr ⟨"video", ".mp4"⟩)) = ["0:v:0", "1:a:0"] := by
  obtain ⟨h1, h2, -, -, -, -⟩ :=
    mux_fallback_and_promotion "frames" ⟨"video", ".mp4"⟩ "music.mp3" "0.15"
      (by decide) (by decide)
  exact ⟨h1, h2⟩

/-! ## video/renderer.py output naming and precondition -/

/-- The sanitized puzzle id (renderer.py line 177):
keep alphanumerics, hyphen and underscore, drop everything else.
(`isalnum` is modelled for ASCII text.) -/
def safe_id (puzzle_id : String) : String :=
  ⟨puzzle_id.data.filter fun c => c.isAlphanum || c == '-' || c == '_'⟩

/-- One digit of a zero-padded decimal field. -/
def pad2 (n : ℕ) : String :=
  ⟨[Nat.digitChar (n / 10), Nat.digitChar (n % 10)]⟩

/-- A four-digit zero-padded decimal field. -/
def pad4 (n : ℕ) : String :=
  ⟨[Nat.digitChar (n / 1000), Nat.digitChar (n / 100 % 10),
    Nat.digitChar (n / 10 % 10), Nat.digitChar (n % 10)]⟩

/-- `_now_stamp` (renderer.py lines 89-90):
`datetime.utcnow().strftime("%Y%m%d_%H%M%S")`, for in-range field values
(year below 10000, the rest below 100). -/
def _now_stamp (y mo d hr mi s : ℕ) : String :=
  pad4 y ++ pad2 mo ++ pad2 d ++ "_" ++ pad2 hr ++ pad2 mi ++ pad2 s

/-- `base_name = f"{stamp}_{safe_id}"` (renderer.py line 178). -/
def base_name (stamp sid : String) : String := stamp ++ "_" ++ sid

/-- `out_video = VIDEO_OUTPUT_DIR / f"{base_name}.mp4"`
(renderer.py line 180), with the default output directory. -/
def out_video_path (stamp puzzle_id : String) : String :=
  "output/videos/" ++ base_name stamp (safe_id puzzle_id) ++ ".mp4"

/-- C8 counterexample: the output path depends only on the UTC-second
timestamp and the sanitized id, so two distinct render invocations in the
same second whose puzzle ids sanitize identically ("quiz-1!" and
"quiz-1?" both sanitize to "quiz-1") produce the same output path. -/
theorem output_path_collision :
    ("quiz-1!" : String) ≠ "quiz-1?" ∧
    out_video_path (_now_stamp 2026 10 12 9 30 0) "quiz-1!" =
      out_video_path (_now_stamp 2026 10 12 9 30 0) "quiz-1?" := by
  constructor
  · decide
  · decide

/-- C8 amended: output paths collide only when both the UTC-second
timestamp strings and the sanitized puzzle ids coincide — two invocations
whose (equal-length) stamps differ, or whose ids sanitize differently,
never produce the same output path. -/
theorem output_path_unique (st1 st2 id1 id2 : String)
    (hlen : st1.length = st2.length)
    (hdiff : st1 ≠ st2 ∨ safe_id id1 ≠ safe_id id2) :
    out_video_path st1 id1 ≠ out_video_path st2 id2 := by
  intro heq
  have hdata : (out_video_path st1 id1).data = (out_video_path st2 id2).data :=
    congrArg String.data heq
  simp only [out_video_path, base_name, String.data_append,
    List.append_assoc] at hdata
  have hmid : st1.data ++ ("_".data ++ ((safe_id id1).data ++ ".mp4".data)) =
      st2.data ++ ("_".data ++ ((safe_id id2).data ++ ".mp4".data)) :=
    List.append_cancel_left hdata
  have hstlen : st1.data.length = st2.data.length := hlen
  obtain ⟨hst, hrest⟩ := List.append_inj hmid hstlen
  have hsid : (safe_id id1).data ++ ".mp4".data =
      (safe_id id2).data ++ ".mp4".data :=
    List.append_cancel_left hrest
  have hsid2 : (safe_id id1).data = (safe_id id2).data :=
    List.append_cancel_right hsid
  rcases hdiff with h | h
  · exact h (String.ext hst)
  · exact h (String.ext hsid2)

/-- Witness for the amended C8: one second apart, same puzzle id, the
paths differ. -/
theorem output_path_unique_witness :
    out_video_path (_now_stamp 2026 10 12 9 30 0) "quiz-1" ≠
      out_video_path (_now_stamp 2026 10 12 9 30 1) "quiz-1" :=
  output_path_unique (_now_stamp 2026 10 12 9 30 0) (_now_stamp 2026 10 12 9 30 1)
    "quiz-1" "quiz-1" (by decide) (Or.inl (by decide))

/-- An observable step of `render_job_to_mp4` after its precondition
checks. -/
inductive RenderEvent where
  | frameRendered (i : ℕ)
  | encoderInvoked
deriving DecidableEq, Repr

/-- `render_job_to_mp4` (renderer.py lines 131-260) reduced to its
image-count precondition and the subsequent frame loop plus encoder call:
`if len(job.images) != 4: raise ValueError(...)` (line 144, mirrored by the
`QuizCompositor.__init__` check at compositor.py line 72) happens before
any frame is rendered and before ffmpeg is invoked. -/
def render_job_to_mp4 (numImages : ℕ) (duration_seconds fps : ℤ) :
    Except String (List RenderEvent) :=
  if numImages ≠ 4 then
    Except.error "RenderJob.images must contain exactly 4 images"
  else
    Except.ok
      ((List.range (total_frames duration_seconds fps).toNat).map
          RenderEvent.frameRendered
        ++ [RenderEvent.encoderInvoked])

/-- C9: a job whose image list does not contain exactly 4 images makes the
core raise a fatal error, producing no frame events and no encoder
invocation. -/
theorem wrong_image_count_rejected (numImages : ℕ) (d f : ℤ)
    (hn : numImages ≠ 4) :
    render_job_to_mp4 numImages d f =
      Except.error "RenderJob.images must contain exactly 4 images" := by
  simp [render_job_to_mp4, hn]

/-- Witness for C9 with 3 images. -/
theorem wrong_image_count_rejected_witness :
    render_job_to_mp4 3 20 30 =
      Except.error "RenderJob.images must contain exactly 4 images" :=
  wrong_image_count_rejected 3 20 30 (by decide)

end VQS
